import Mathlib

/-! Linux service manager: health monitor loop and scheduled restart engine.

A shallow embedding of the Go packages `internal/db`, `internal/monitor` and
`internal/scheduler`.

* The registry (SQLite) is a value of type `db.DB`; every procedure takes the
  registry and returns the registry it leaves behind.
* The outside world (the shell, `who`, the clock, storage faults, the cron
  expression parser) is a value of type `Env`: one oracle per external call.
* Every procedure returns the list of external effects it performed, oldest
  first (`Event`), log lines included.
* A goroutine started with `go checkAndRestart(s)` is returned as a launched
  unit; `monitor.runUnits` runs launched units one after the other.
* A Go panic is `Except.error`.
-/

/-- A Go `error`: `none` is `nil`, `some msg` is an error whose text is `msg`. -/
abbrev GoError := Option String

namespace db

/-- The struct `Service` of `internal/db/db.go`. Timestamps are clock readings. -/
structure Service where
  ID : Int
  Name : String
  RestartCommand : String
  CheckCommand : String
  StatusCommand : String
  CronSchedule : String
  Enabled : Bool
  LastChecked : Option Nat
  LastRestarted : Option Nat
deriving DecidableEq, Repr

/-- The statements the core sends to the registry. -/
inductive Query where
  | ListServices
  | GetPauseConfig
  | UpdateLastChecked (id : Int)
  | UpdateLastRestarted (id : Int)
deriving DecidableEq, Repr

/-- The two tables of the registry: `services` and `app_config` (key, value). -/
structure DB where
  services : List Service
  app_config : List (String × String)
deriving DecidableEq, Repr

end db

/-- One external effect of the core. -/
inductive Event where
  | runCommand (cmdStr : String)
  | who
  | db (q : db.Query)
  | log (line : String)
  | AddFunc (spec : String) (svc : db.Service)
deriving DecidableEq, Repr

/-- The outside world during one procedure: the exit status of a command is the
only signal consumed, and within one procedure it is a function of the command
string. `sh cmd` is the result of `exec.Command("sh", "-c", cmd).Run()`,
`who` the output and error of `exec.Command("who").Output()`,
`dbErr q` the error of the storage call behind `q`, `now` the reading of
`time.Now()`, and `parse spec` the error of the schedule parser of the cron
instance on `spec`. -/
structure Env where
  sh : String → GoError
  who : String × GoError
  dbErr : db.Query → GoError
  now : Nat
  parse : String → GoError

/-- The trace without its log lines. -/
def actions (t : List Event) : List Event :=
  t.filter fun e => match e with
    | .log _ => false
    | _ => true

/-- The command strings handed to the shell, in order of invocation. -/
def commandsRun (t : List Event) : List String :=
  t.filterMap fun e => match e with
    | .runCommand cmdStr => some cmdStr
    | _ => none

/-- The timestamp writes sent to the registry, in order. -/
def timestampWrites (t : List Event) : List db.Query :=
  t.filterMap fun e => match e with
    | .db (.UpdateLastChecked id) => some (.UpdateLastChecked id)
    | .db (.UpdateLastRestarted id) => some (.UpdateLastRestarted id)
    | _ => none

/-- The registrations attempted on the cron instance: schedule expression and
captured record, in order. -/
def registrations (t : List Event) : List (String × db.Service) :=
  t.filterMap fun e => match e with
    | .AddFunc spec svc => some (spec, svc)
    | _ => none

namespace db

/-- `ListServices`: all rows of `services`, or the error of the query. -/
def ListServices (env : Env) (d : DB) : List Service × GoError :=
  match env.dbErr .ListServices with
  | some err => ([], some err)
  | none => (d.services, none)

/-- `UpdateLastChecked`: `UPDATE services SET last_checked = now WHERE id = ?`. -/
def UpdateLastChecked (env : Env) (id : Int) (d : DB) : GoError × DB :=
  match env.dbErr (.UpdateLastChecked id) with
  | some err => (some err, d)
  | none =>
    (none, { d with services := d.services.map fun r =>
      if r.ID = id then { r with LastChecked := some env.now } else r })

/-- `UpdateLastRestarted`: `UPDATE services SET last_restarted = now WHERE id = ?`. -/
def UpdateLastRestarted (env : Env) (id : Int) (d : DB) : GoError × DB :=
  match env.dbErr (.UpdateLastRestarted id) with
  | some err => (some err, d)
  | none =>
    (none, { d with services := d.services.map fun r =>
      if r.ID = id then { r with LastRestarted := some env.now } else r })

/-- `GetPauseConfig`: the value stored under `pause_on_active_user`; a missing
row is `false` without error, any other failure is `false` with the error. -/
def GetPauseConfig (env : Env) (d : DB) : Bool × GoError :=
  match env.dbErr .GetPauseConfig with
  | some err => (false, some err)
  | none =>
    match d.app_config.lookup "pause_on_active_user" with
    | none => (false, none)
    | some val => (val == "true", none)

end db

namespace monitor

open db

/-- The package variable `stopChan`: all that matters of the channel is whether
it has been closed. -/
structure State where
  stopChanClosed : Bool
deriving DecidableEq, Repr

/-- The state at process start: `make(chan struct{})`, an open channel. -/
def init : State := { stopChanClosed := false }

/-- `Stop`: `close(stopChan)`. Closing a closed channel panics. -/
def Stop (m : State) : Except String State :=
  if m.stopChanClosed then .error "close of closed channel"
  else .ok { m with stopChanClosed := true }

/-- `runCommand`: run the string through `sh -c` and return its error. -/
def runCommand (env : Env) (cmdStr : String) : GoError :=
  env.sh cmdStr

/-- `IsUserActive`: whether `who` printed anything; `false` when it failed. -/
def IsUserActive (env : Env) : List Event × Bool :=
  match env.who with
  | (_, some err) => ([.who, .log ("Error checking active users: " ++ err)], false)
  | (output, none) => ([.who], output.length > 0)

/-- `checkAndRestart`: one check-and-restart unit for the record `s`. -/
def checkAndRestart (env : Env) (s : Service) (d : DB) : List Event × DB :=
  let err := runCommand env s.CheckCommand
  let d1 := (UpdateLastChecked env s.ID d).2
  let t := [Event.runCommand s.CheckCommand, Event.db (.UpdateLastChecked s.ID)]
  match err with
  | some _ =>
    let t1 := t ++ [Event.log ("[Monitor] Service " ++ s.Name ++ " check failed (cmd: "
      ++ s.CheckCommand ++ "). Restarting..."), Event.runCommand s.RestartCommand]
    match runCommand env s.RestartCommand with
    | some restartErr =>
      (t1 ++ [Event.log ("[Monitor] Failed to restart service " ++ s.Name ++ ": "
        ++ restartErr)], d1)
    | none =>
      (t1 ++ [Event.log ("[Monitor] Successfully restarted service " ++ s.Name),
        Event.db (.UpdateLastRestarted s.ID)], (UpdateLastRestarted env s.ID d1).2)
  | none => (t, d1)

/-- The `for _, s := range services` loop of `checkAllServices`: the records
handed to `go checkAndRestart(s)`, in launch order. -/
def launch : List Service → List Service
  | [] => []
  | s :: rest => if !s.Enabled then launch rest else s :: launch rest

/-- `checkAllServices`: its own effects and the units it launches. -/
def checkAllServices (env : Env) (d : DB) : List Event × List Service :=
  match ListServices env d with
  | (_, some err) =>
    ([Event.db .ListServices, Event.log ("Error listing services: " ++ err)], [])
  | (services, none) => ([Event.db .ListServices], launch services)

/-- The body of `case <-ticker.C` in `RunLoop`: one tick of the coordinator.
Returns its own effects and the units it launches. -/
def tick (env : Env) (d : DB) : List Event × List Service :=
  let r := GetPauseConfig env d
  let t := match r.2 with
    | some err => [Event.db .GetPauseConfig, Event.log ("Error reading pause config: " ++ err)]
    | none => [Event.db .GetPauseConfig]
  if r.1 then
    let a := IsUserActive env
    if a.2 then
      (t ++ a.1 ++ [Event.log "[Smart Pause] Active user session detected. Skipping checks..."], [])
    else
      let c := checkAllServices env d
      (t ++ a.1 ++ c.1, c.2)
  else
    let c := checkAllServices env d
    (t ++ c.1, c.2)

/-- Launched units run to completion one after the other, in the given order. -/
def runUnits (env : Env) : List Service → DB → List Event × DB
  | [], d => ([], d)
  | s :: rest, d =>
    let r := checkAndRestart env s d
    let r2 := runUnits env rest r.2
    (r.1 ++ r2.1, r2.2)

/-- One tick followed by the units it launched, run in launch order. -/
def runTick (env : Env) (d : DB) : List Event × DB :=
  let r := tick env d
  let u := runUnits env r.2 d
  (r.1 ++ u.1, u.2)

/-- What the `select` of `RunLoop` receives. -/
inductive Signal where
  | tick
  | stop
deriving DecidableEq, Repr

/-- The `for`/`select` loop of `RunLoop` over the signals it receives: every
tick runs `tick` (its launched units are run before the next signal), the stop
signal logs and returns. The ticker set-up and the start-up log line precede
the loop and are not part of it. -/
def RunLoop (env : Env) : List Signal → DB → List Event × DB
  | [], d => ([], d)
  | .stop :: _, d => ([Event.log "Stopping monitoring loop"], d)
  | .tick :: rest, d =>
    let r := runTick env d
    let r2 := RunLoop env rest r.2
    (r.1 ++ r2.1, r2.2)

end monitor

namespace scheduler

open db

/-- One entry of the schedule table of the cron instance: its id, the schedule
expression it was registered with, and the record captured by the closure
`func() { safeRestart(svc) }`. -/
structure Entry where
  ID : Nat
  Spec : String
  svc : Service
deriving DecidableEq, Repr

/-- Modelled from the spec: the cron instance `*cron.Cron` comes from the
library `github.com/robfig/cron/v3`, which is not among the sources. It holds
the table of registered triggers ("maintains one cron trigger per service"), a
running flag and the last entry id handed out. -/
structure Cron where
  entries : List Entry
  running : Bool
  nextID : Nat
deriving DecidableEq, Repr

/-- Modelled from the spec: `cron.New()` of the absent cron library, an instance
with no trigger that is not running. -/
def New : Cron := { entries := [], running := false, nextID := 0 }

/-- Modelled from the spec: `c.AddFunc(spec, cmd)` of the absent cron library.
A schedule the parser rejects registers nothing and returns the error
("that service is simply not scheduled"); otherwise one trigger keyed to the
schedule is added and its id returned. -/
def Cron.AddFunc (env : Env) (c : Cron) (spec : String) (svc : Service) :
    (Nat × GoError) × Cron :=
  match env.parse spec with
  | some err => ((0, some err), c)
  | none =>
    ((c.nextID + 1, none),
      { c with nextID := c.nextID + 1,
               entries := c.entries ++ [{ ID := c.nextID + 1, Spec := spec, svc := svc }] })

/-- Modelled from the spec: `c.Start()` of the absent cron library, which
starts the firing of the registered triggers. -/
def Cron.Start (c : Cron) : Cron := { c with running := true }

/-- Modelled from the spec: `c.Stop()` of the absent cron library ("Stopping the
Engine cancels all pending future firings"): a running instance stops running,
a stopped one is left as it is. -/
def Cron.Stop (c : Cron) : Cron :=
  if c.running then { c with running := false } else c

/-- `runCommand` of the scheduler package. -/
def runCommand (env : Env) (cmdStr : String) : GoError :=
  env.sh cmdStr

/-- `safeRestart`: the procedure run at every firing of a trigger. -/
def safeRestart (env : Env) (s : Service) (d : DB) : List Event × DB :=
  let t := [Event.log ("[Scheduler] Triggered scheduled restart for " ++ s.Name)]
  let restart (t : List Event) : List Event × DB :=
    match runCommand env s.RestartCommand with
    | some err =>
      (t ++ [Event.runCommand s.RestartCommand,
        Event.log ("[Scheduler] Failed to restart " ++ s.Name ++ ": " ++ err)], d)
    | none =>
      (t ++ [Event.runCommand s.RestartCommand,
        Event.log ("[Scheduler] Successfully restarted " ++ s.Name),
        Event.db (.UpdateLastRestarted s.ID)], (UpdateLastRestarted env s.ID d).2)
  if s.StatusCommand ≠ "" then
    match runCommand env s.StatusCommand with
    | some _ =>
      (t ++ [Event.runCommand s.StatusCommand,
        Event.log ("[Scheduler] Skipping restart for " ++ s.Name
          ++ ": Status check failed (not running?)")], d)
    | none => restart (t ++ [Event.runCommand s.StatusCommand])
  else
    restart (t ++ [Event.log ("[Scheduler] Warning: No status_command for " ++ s.Name
      ++ ". Restarting blindly.")])

/-- The `for _, s := range services` loop of `loadJobs`. -/
def loadLoop (env : Env) : List Service → Cron → List Event × Cron
  | [], c => ([], c)
  | s :: rest, c =>
    if s.CronSchedule = "" ∨ s.Enabled = false then loadLoop env rest c
    else
      let r := c.AddFunc env s.CronSchedule s
      let line := match r.1.2 with
        | some err =>
          Event.log ("[Scheduler] Failed to schedule service " ++ s.Name
            ++ " with schedule \x27" ++ s.CronSchedule ++ "\x27: " ++ err)
        | none =>
          Event.log ("[Scheduler] Scheduled restart for " ++ s.Name ++ " at \x27"
            ++ s.CronSchedule ++ "\x27")
      let r2 := loadLoop env rest r.2
      (Event.AddFunc s.CronSchedule s :: line :: r2.1, r2.2)

/-- `loadJobs`, on the cron instance held by the package variable `c`. -/
def loadJobs (env : Env) (d : DB) (c : Cron) : (List Event × GoError) × Cron :=
  match ListServices env d with
  | (_, some err) => (([Event.db .ListServices], some err), c)
  | (services, none) =>
    let r := loadLoop env services c
    ((Event.db .ListServices :: r.1, none), r.2)

/-- `Start`: a fresh cron instance, the jobs loaded into it, then started. The
result is the new value of the package variable `c`. -/
def Start (env : Env) (d : DB) : List Event × Option Cron :=
  let r := loadJobs env d New
  let t := match r.1.2 with
    | some err => r.1.1 ++ [Event.log ("[Scheduler] Failed to load jobs: " ++ err)]
    | none => r.1.1
  (t ++ [Event.log "[Scheduler] Started cron scheduler"], some r.2.Start)

/-- `Stop`, on the package variable `c`: nothing when it is `nil`. -/
def Stop (c : Option Cron) : Except String (Option Cron) :=
  match c with
  | some cr => .ok (some cr.Stop)
  | none => .ok none

/-- The firing of one trigger: the closure registered by `loadJobs`. -/
def fire (env : Env) (e : Entry) (d : DB) : List Event × DB :=
  safeRestart env e.svc d

end scheduler

namespace scheduler

/-- Go `unicode.IsSpace`, the separator test of `strings.Fields`. -/
def isSpace (c : Char) : Bool :=
  let n := c.toNat
  decide (n = 9 ∨ n = 10 ∨ n = 11 ∨ n = 12 ∨ n = 13 ∨ n = 32 ∨ n = 133 ∨ n = 160
    ∨ n = 5760 ∨ (8192 ≤ n ∧ n ≤ 8202) ∨ n = 8232 ∨ n = 8233 ∨ n = 8239 ∨ n = 8287
    ∨ n = 12288)

/-- The scan of `strings.Fields`; `cur` is the field being read, reversed. -/
def fieldsAux : List Char → List Char → List String
  | [], cur => if cur.isEmpty then [] else [String.mk cur.reverse]
  | ch :: rest, cur =>
    if isSpace ch then
      if cur.isEmpty then fieldsAux rest [] else String.mk cur.reverse :: fieldsAux rest []
    else fieldsAux rest (ch :: cur)

/-- Go `strings.Fields`: the maximal runs of characters that are not spaces. -/
def Fields (s : String) : List String :=
  fieldsAux s.data []

/-- Go `strings.HasPrefix`. -/
def HasPrefix (s pre : String) : Bool :=
  pre.data.isPrefixOf s.data

/-- The type `ParseOption` of the cron library (github.com/robfig/cron/v3, not
among the sources), modelled on the library: which fields an expression
carries and which features are on. A field that is not included takes its
default value. -/
structure ParseOption where
  Second : Bool
  SecondOptional : Bool
  Minute : Bool
  Hour : Bool
  Dom : Bool
  Month : Bool
  Dow : Bool
  DowOptional : Bool
  Descriptor : Bool
deriving DecidableEq, Repr

/-- The parser `standardParser` of the cron library, modelled on the library:
the one `cron.New()` installs when it is given no option, as in `Start`. It
reads minute, hour, day of month, month and day of week, and descriptors. -/
def standardParser : ParseOption :=
  { Second := false, SecondOptional := false, Minute := true, Hour := true, Dom := true,
    Month := true, Dow := true, DowOptional := false, Descriptor := true }

/-- The parser installed by the option `cron.WithSeconds()` of the cron library,
modelled on the library: the standard parser with a leading seconds field.
`Start` does not pass this option. -/
def secondsParser : ParseOption :=
  { standardParser with Second := true }

/-- The parts of the cron library that are left open: `getField i field` is the
error of the field parser on the text of the field at place `i` (0 second,
1 minute, 2 hour, 3 day of month, 4 month, 5 day of week),
`ParseDuration text` the error of `time.ParseDuration`, and `withLocation spec`
what `Parse` returns on an expression that starts with a time zone (`TZ=` or
`CRON_TZ=`). -/
structure Lib where
  getField : Nat → String → GoError
  ParseDuration : String → GoError
  withLocation : String → GoError

/-- A list of strings as `fmt` prints it with `%s`. -/
def fmtFields (fields : List String) : String :=
  "[" ++ " ".intercalate fields ++ "]"

/-- The last loop of `normalizeFields`: one text per place, the next given
field where the place is included, the default of the place where it is not. -/
def expandFields : List (Bool × String) → List String → List String
  | [], _ => []
  | (true, _) :: places, field :: fields => field :: expandFields places fields
  | (true, dflt) :: places, [] => dflt :: expandFields places []
  | (false, dflt) :: places, fields => dflt :: expandFields places fields

/-- The function `normalizeFields` of the cron library, modelled on the library:
the number of fields must fit the places the options include, a missing
optional field and the places not included are filled with their defaults. -/
def normalizeFields (fields : List String) (options : ParseOption) :
    List String × GoError :=
  let optionals := (if options.SecondOptional then 1 else 0)
    + (if options.DowOptional then 1 else 0)
  let places : List (Bool × String) :=
    [(options.Second || options.SecondOptional, "0"), (options.Minute, "0"),
     (options.Hour, "0"), (options.Dom, "*"), (options.Month, "*"),
     (options.Dow || options.DowOptional, "*")]
  if optionals > 1 then ([], some "multiple optionals may not be configured")
  else
    let max := (places.filter fun pl => pl.1).length
    let min := max - optionals
    let count := fields.length
    if count < min ∨ count > max then
      if min = max then
        ([], some ("expected exactly " ++ toString min ++ " fields, found "
          ++ toString count ++ ": " ++ fmtFields fields))
      else
        ([], some ("expected " ++ toString min ++ " to " ++ toString max
          ++ " fields, found " ++ toString count ++ ": " ++ fmtFields fields))
    else
      let filled :=
        if min < max ∧ count = min then
          if options.DowOptional then fields ++ ["*"] else "0" :: fields
        else fields
      (expandFields places filled, none)

/-- The function `parseDescriptor` of the cron library, modelled on the
library: the named schedules, and `@every` followed by a duration. -/
def parseDescriptor (lib : Lib) (descriptor : String) : GoError :=
  if descriptor = "@yearly" ∨ descriptor = "@annually" then none
  else if descriptor = "@monthly" then none
  else if descriptor = "@weekly" then none
  else if descriptor = "@daily" ∨ descriptor = "@midnight" then none
  else if descriptor = "@hourly" then none
  else if HasPrefix descriptor "@every " then
    match lib.ParseDuration (String.mk (descriptor.data.drop 7)) with
    | some err => some ("failed to parse duration " ++ descriptor ++ ": " ++ err)
    | none => none
  else some ("unrecognized descriptor: " ++ descriptor)

/-- The six fields go through the field parser in order, from place `i` on; the
first error is the result. -/
def parseFields (lib : Lib) : Nat → List String → GoError
  | _, [] => none
  | i, field :: fields =>
    match lib.getField i field with
    | some err => some err
    | none => parseFields lib (i + 1) fields

/-- The method `Parse` of the parser of the cron library, modelled on the
library: the error it returns on a schedule expression. -/
def Parse (p : ParseOption) (lib : Lib) (spec : String) : GoError :=
  if spec = "" then some "empty spec string"
  else if HasPrefix spec "TZ=" || HasPrefix spec "CRON_TZ=" then lib.withLocation spec
  else if HasPrefix spec "@" then
    if !p.Descriptor then some ("parser does not accept descriptors: " ++ spec)
    else parseDescriptor lib spec
  else
    match normalizeFields (Fields spec) p with
    | (_, some err) => some err
    | (fields, none) => parseFields lib 0 fields

end scheduler

/-! ## Scenario data -/

/-- A shell in which `exit 0` succeeds and every other command fails, a clock
reading 100, no storage fault, nobody logged in, a parser accepting all. -/
def exitEnv : Env :=
  { sh := fun cmd => if cmd = "exit 0" then none else some "exit status 1"
    who := ("", none)
    dbErr := fun _ => none
    now := 100
    parse := fun _ => none }

/-- The service `web` of the scenarios: failing check, succeeding restart. -/
def web : db.Service :=
  { ID := 1, Name := "web", RestartCommand := "exit 0", CheckCommand := "exit 1",
    StatusCommand := "", CronSchedule := "", Enabled := true,
    LastChecked := none, LastRestarted := none }

/-- The service `db` of the scenarios: succeeding check. -/
def dbSvc : db.Service :=
  { ID := 2, Name := "db", RestartCommand := "exit 0", CheckCommand := "exit 0",
    StatusCommand := "", CronSchedule := "", Enabled := true,
    LastChecked := none, LastRestarted := none }

/-- A registry holding `web` and `db`, Smart Pause not configured. -/
def registry : db.DB := { services := [web, dbSvc], app_config := [] }

/-- The service `cache` of the scenarios: status command failing, daily schedule. -/
def cache : db.Service :=
  { ID := 3, Name := "cache", RestartCommand := "exit 0", CheckCommand := "exit 0",
    StatusCommand := "exit 1", CronSchedule := "@daily", Enabled := true,
    LastChecked := none, LastRestarted := none }

/-- A service that has been switched off, with a schedule and a failing check. -/
def off : db.Service :=
  { ID := 4, Name := "off", RestartCommand := "exit 0", CheckCommand := "exit 1",
    StatusCommand := "", CronSchedule := "@hourly", Enabled := false,
    LastChecked := none, LastRestarted := none }

/-- A service whose restart command fails, without a status command. -/
def stuck : db.Service :=
  { ID := 5, Name := "stuck", RestartCommand := "exit 2", CheckCommand := "exit 1",
    StatusCommand := "", CronSchedule := "0 3 * * *", Enabled := true,
    LastChecked := none, LastRestarted := none }

/-- A registry with Smart Pause switched on and two enabled services. -/
def pausedRegistry : db.DB :=
  { services := [web, dbSvc], app_config := [("pause_on_active_user", "true")] }

/-- The environment `exitEnv` with one user logged in. -/
def activeEnv : Env := { exitEnv with who := ("root pts/0", none) }

/-- A registry with all five services. -/
def fullRegistry : db.DB :=
  { services := [web, off, cache, stuck, dbSvc], app_config := [] }

/-- The environment `exitEnv` with a parser that rejects the expression `@daily`. -/
def strictEnv : Env :=
  { exitEnv with parse := fun spec => if spec = "@daily" then some "bad spec" else none }

/-- A cron library whose field parser accepts every field text, whose duration
parser accepts every text, and which accepts every time zone. -/
def openLib : scheduler.Lib :=
  { getField := fun _ _ => none
    ParseDuration := fun _ => none
    withLocation := fun _ => none }

/-- The environment `exitEnv` with the parser that `cron.New()` installs. -/
def cronEnv : Env :=
  { exitEnv with parse := scheduler.Parse scheduler.standardParser openLib }

/-- A service scheduled by an expression of six fields, seconds first. -/
def nightly : db.Service :=
  { ID := 6, Name := "nightly", RestartCommand := "exit 0", CheckCommand := "exit 0",
    StatusCommand := "", CronSchedule := "0 0 3 * * *", Enabled := true,
    LastChecked := none, LastRestarted := none }

/-- A registry with a shortcut, a five-field and a six-field schedule. -/
def cronRegistry : db.DB :=
  { services := [cache, stuck, nightly], app_config := [] }

/-! ## Theorems -/

namespace monitor

open db

theorem mem_launch {s : Service} {l : List Service} :
    s ∈ launch l ↔ s ∈ l ∧ s.Enabled = true := by
  induction l with
  | nil => simp [launch]
  | cons a l ih =>
    by_cases ha : a.Enabled = true
    · simp only [launch, ha, Bool.not_true, Bool.false_eq_true, if_false, List.mem_cons, ih]
      constructor
      · rintro (h | h)
        · exact ⟨Or.inl h, h ▸ ha⟩
        · exact ⟨Or.inr h.1, h.2⟩
      · rintro ⟨h | h, h2⟩
        · exact Or.inl h
        · exact Or.inr ⟨h, h2⟩
    · simp only [Bool.not_eq_true] at ha
      simp only [launch, ha, Bool.not_false, if_true, List.mem_cons, ih]
      constructor
      · rintro ⟨h, h2⟩
        exact ⟨Or.inr h, h2⟩
      · rintro ⟨h | h, h2⟩
        · rw [h, ha] at h2
          exact absurd h2 (by decide)
        · exact ⟨h, h2⟩

/-- C1: for an enabled service of the registry whose check command fails and
whose restart command succeeds, the loop launches a unit for it, and that unit
runs the check, records checked, runs the restart command (exactly once) and
records restarted, in this order and nothing else besides log lines; when the
two writes go through, the row of the service carries both timestamps. -/
theorem checkAndRestart_failing_check (env : Env) (s : Service) (d : DB)
    (hs : s ∈ d.services) (he : s.Enabled = true)
    (hc : env.sh s.CheckCommand ≠ none) (hr : env.sh s.RestartCommand = none) :
    s ∈ launch d.services ∧
    actions (checkAndRestart env s d).1 =
      [Event.runCommand s.CheckCommand, Event.db (.UpdateLastChecked s.ID),
       Event.runCommand s.RestartCommand, Event.db (.UpdateLastRestarted s.ID)] ∧
    (checkAndRestart env s d).1.count (Event.runCommand s.RestartCommand) = 1 ∧
    (env.dbErr (.UpdateLastChecked s.ID) = none →
      env.dbErr (.UpdateLastRestarted s.ID) = none →
      { s with LastChecked := some env.now, LastRestarted := some env.now }
        ∈ (checkAndRestart env s d).2.services) := by
  obtain ⟨e, hce⟩ := Option.ne_none_iff_exists'.mp hc
  have hne : s.CheckCommand ≠ s.RestartCommand := by
    intro h
    rw [h, hr] at hce
    exact absurd hce (by simp)
  refine ⟨mem_launch.mpr ⟨hs, he⟩, ?_, ?_, ?_⟩
  · simp [checkAndRestart, runCommand, hce, hr, actions]
  · simp [checkAndRestart, runCommand, hce, hr, List.count_cons, hne]
  · intro h1 h2
    simp only [checkAndRestart, runCommand, hce, hr, UpdateLastChecked, UpdateLastRestarted,
      h1, h2, List.map_map, List.mem_map]
    exact ⟨s, hs, by simp⟩

/-- C1, on the scenario: service `web` with check `exit 1`, restart `exit 0`. -/
theorem checkAndRestart_failing_check_witness :
    web ∈ launch registry.services ∧
    actions (checkAndRestart exitEnv web registry).1 =
      [Event.runCommand "exit 1", Event.db (.UpdateLastChecked 1),
       Event.runCommand "exit 0", Event.db (.UpdateLastRestarted 1)] ∧
    (checkAndRestart exitEnv web registry).1.count (Event.runCommand "exit 0") = 1 ∧
    { web with LastChecked := some 100, LastRestarted := some 100 }
      ∈ (checkAndRestart exitEnv web registry).2.services := by
  have h := checkAndRestart_failing_check exitEnv web registry (by decide) (by decide)
    (by decide) (by decide)
  exact ⟨h.1, h.2.1, h.2.2.1, h.2.2.2 rfl rfl⟩

end monitor

namespace monitor

open db

theorem lastRestarted_UpdateLastChecked (env : Env) (id : Int) (d : DB) :
    (UpdateLastChecked env id d).2.services.map (fun r => r.LastRestarted)
      = d.services.map (fun r => r.LastRestarted) := by
  unfold UpdateLastChecked
  cases env.dbErr (.UpdateLastChecked id) with
  | some err => rfl
  | none =>
    simp only [List.map_map]
    apply List.map_congr_left
    intro r _
    by_cases h : r.ID = id <;> simp [h]

/-- C2: for an enabled service of the registry whose check command succeeds,
the loop launches a unit for it; that unit runs the check command and nothing
else, writes checked for the service and nothing else, so records no restarted;
the restarted column of the registry is left as it was, and when the write goes
through the row of the service carries the checked timestamp. -/
theorem checkAndRestart_passing_check (env : Env) (s : Service) (d : DB)
    (hs : s ∈ d.services) (he : s.Enabled = true)
    (hc : env.sh s.CheckCommand = none) :
    s ∈ launch d.services ∧
    (checkAndRestart env s d).1 =
      [Event.runCommand s.CheckCommand, Event.db (.UpdateLastChecked s.ID)] ∧
    commandsRun (checkAndRestart env s d).1 = [s.CheckCommand] ∧
    timestampWrites (checkAndRestart env s d).1 = [.UpdateLastChecked s.ID] ∧
    (∀ id, Event.db (.UpdateLastRestarted id) ∉ (checkAndRestart env s d).1) ∧
    (checkAndRestart env s d).2.services.map (fun r => r.LastRestarted)
      = d.services.map (fun r => r.LastRestarted) ∧
    (env.dbErr (.UpdateLastChecked s.ID) = none →
      { s with LastChecked := some env.now } ∈ (checkAndRestart env s d).2.services) := by
  have ht : (checkAndRestart env s d).1 =
      [Event.runCommand s.CheckCommand, Event.db (.UpdateLastChecked s.ID)] := by
    simp [checkAndRestart, runCommand, hc]
  have hd : (checkAndRestart env s d).2 = (UpdateLastChecked env s.ID d).2 := by
    simp [checkAndRestart, runCommand, hc]
  refine ⟨mem_launch.mpr ⟨hs, he⟩, ht, ?_, ?_, ?_, ?_, ?_⟩
  · rw [ht]; rfl
  · rw [ht]; rfl
  · intro id
    rw [ht]
    simp
  · rw [hd]
    exact lastRestarted_UpdateLastChecked env s.ID d
  · intro h1
    rw [hd]
    simp only [UpdateLastChecked, h1, List.mem_map]
    exact ⟨s, hs, by simp⟩

/-- C2, on the scenario: service `db` with check `exit 0`; its restarted
timestamp stays unset. -/
theorem checkAndRestart_passing_check_witness :
    dbSvc ∈ launch registry.services ∧
    (checkAndRestart exitEnv dbSvc registry).1 =
      [Event.runCommand "exit 0", Event.db (.UpdateLastChecked 2)] ∧
    commandsRun (checkAndRestart exitEnv dbSvc registry).1 = ["exit 0"] ∧
    timestampWrites (checkAndRestart exitEnv dbSvc registry).1 = [.UpdateLastChecked 2] ∧
    (∀ id, Event.db (.UpdateLastRestarted id) ∉ (checkAndRestart exitEnv dbSvc registry).1) ∧
    (checkAndRestart exitEnv dbSvc registry).2.services.map (fun r => r.LastRestarted)
      = [none, none] ∧
    { dbSvc with LastChecked := some 100 }
      ∈ (checkAndRestart exitEnv dbSvc registry).2.services := by
  have h := checkAndRestart_passing_check exitEnv dbSvc registry (by decide) (by decide)
    (by decide)
  exact ⟨h.1, h.2.1, h.2.2.1, h.2.2.2.1, h.2.2.2.2.1, h.2.2.2.2.2.1, h.2.2.2.2.2.2 rfl⟩

/-- C3: on a tick where the pause configuration reads enabled and the activity
detector reports a user, whatever the registry holds, the tick launches no
unit, runs no command, writes no timestamp, does not even list the services,
and the tick with its units leaves the registry as it was; all it does is read
the pause configuration and ask who is logged in. -/
theorem tick_paused (env : Env) (d : DB)
    (hp : (GetPauseConfig env d).1 = true) (hu : (IsUserActive env).2 = true) :
    (tick env d).2 = [] ∧
    actions (tick env d).1 = [Event.db .GetPauseConfig, Event.who] ∧
    commandsRun (runTick env d).1 = [] ∧
    timestampWrites (runTick env d).1 = [] ∧
    Event.db .ListServices ∉ (runTick env d).1 ∧
    (runTick env d).2 = d := by
  have hn : (GetPauseConfig env d).2 = none := by
    unfold GetPauseConfig at hp ⊢
    cases h : env.dbErr .GetPauseConfig with
    | some err => simp [h] at hp
    | none =>
      cases h2 : d.app_config.lookup "pause_on_active_user" <;> simp
  have hw : (IsUserActive env).1 = [Event.who] := by
    unfold IsUserActive at hu ⊢
    rcases hwho : env.who with ⟨out, _ | err⟩
    · simp
    · simp [hwho] at hu
  have ht : tick env d = ([Event.db .GetPauseConfig, Event.who,
      Event.log "[Smart Pause] Active user session detected. Skipping checks..."], []) := by
    simp [tick, hp, hu, hn, hw]
  have hr : runTick env d = ([Event.db .GetPauseConfig, Event.who,
      Event.log "[Smart Pause] Active user session detected. Skipping checks..."], d) := by
    simp [runTick, ht, runUnits]
  refine ⟨by rw [ht], by rw [ht]; rfl, by rw [hr]; rfl, by rw [hr]; rfl, ?_, by rw [hr]⟩
  rw [hr]
  simp

/-- C3, on the scenario: pause enabled, an active session, two enabled services. -/
theorem tick_paused_witness :
    (tick activeEnv pausedRegistry).2 = [] ∧
    actions (tick activeEnv pausedRegistry).1 = [Event.db .GetPauseConfig, Event.who] ∧
    commandsRun (runTick activeEnv pausedRegistry).1 = [] ∧
    timestampWrites (runTick activeEnv pausedRegistry).1 = [] ∧
    Event.db .ListServices ∉ (runTick activeEnv pausedRegistry).1 ∧
    (runTick activeEnv pausedRegistry).2 = pausedRegistry :=
  tick_paused activeEnv pausedRegistry (by decide) (by decide)

end monitor

namespace monitor

open db

theorem timestampWrites_append (a b : List Event) :
    timestampWrites (a ++ b) = timestampWrites a ++ timestampWrites b := by
  simp [timestampWrites, List.filterMap_append]

theorem timestampWrites_checkAndRestart (env : Env) (u : Service) (d : DB) :
    ∀ q ∈ timestampWrites (checkAndRestart env u d).1,
      q = .UpdateLastChecked u.ID ∨ q = .UpdateLastRestarted u.ID := by
  intro q hq
  unfold checkAndRestart runCommand at hq
  cases h1 : env.sh u.CheckCommand <;> cases h2 : env.sh u.RestartCommand <;>
    simp [h1, h2, timestampWrites] at hq <;> simp [hq]

theorem mem_UpdateLastChecked (env : Env) (id : Int) (d : DB) (s : Service)
    (hs : s ∈ d.services) (hne : s.ID ≠ id) : s ∈ (UpdateLastChecked env id d).2.services := by
  unfold UpdateLastChecked
  cases env.dbErr (.UpdateLastChecked id) with
  | some err => exact hs
  | none =>
    simp only [List.mem_map]
    exact ⟨s, hs, by simp [hne]⟩

theorem mem_UpdateLastRestarted (env : Env) (id : Int) (d : DB) (s : Service)
    (hs : s ∈ d.services) (hne : s.ID ≠ id) :
    s ∈ (UpdateLastRestarted env id d).2.services := by
  unfold UpdateLastRestarted
  cases env.dbErr (.UpdateLastRestarted id) with
  | some err => exact hs
  | none =>
    simp only [List.mem_map]
    exact ⟨s, hs, by simp [hne]⟩

theorem mem_checkAndRestart (env : Env) (u : Service) (d : DB) (s : Service)
    (hs : s ∈ d.services) (hne : s.ID ≠ u.ID) : s ∈ (checkAndRestart env u d).2.services := by
  have h1 := mem_UpdateLastChecked env u.ID d s hs hne
  have h2 := mem_UpdateLastRestarted env u.ID _ s h1 hne
  unfold checkAndRestart runCommand
  cases env.sh u.CheckCommand <;> cases env.sh u.RestartCommand <;> simp [h1, h2]

theorem runUnits_untouched (env : Env) (s : Service) (units : List Service)
    (hu : ∀ u ∈ units, s.ID ≠ u.ID) (d : DB) (hs : s ∈ d.services) :
    s ∈ (runUnits env units d).2.services ∧
    Query.UpdateLastChecked s.ID ∉ timestampWrites (runUnits env units d).1 ∧
    Query.UpdateLastRestarted s.ID ∉ timestampWrites (runUnits env units d).1 := by
  induction units generalizing d with
  | nil => simp [runUnits, timestampWrites, hs]
  | cons u rest ih =>
    have hne : s.ID ≠ u.ID := hu u (List.mem_cons_self _ _)
    have ih2 := ih (fun v hv => hu v (List.mem_cons_of_mem _ hv)) (checkAndRestart env u d).2
      (mem_checkAndRestart env u d s hs hne)
    have hw := timestampWrites_checkAndRestart env u d
    simp only [runUnits, timestampWrites_append, List.mem_append, not_or]
    refine ⟨ih2.1, ⟨?_, ih2.2.1⟩, ⟨?_, ih2.2.2⟩⟩
    · intro h
      rcases hw _ h with h3 | h3
      · exact hne (by injection h3)
      · exact absurd h3 (by simp)
    · intro h
      rcases hw _ h with h3 | h3
      · exact absurd h3 (by simp)
      · exact hne (by injection h3)

theorem checkAllServices_own (env : Env) (d : DB) :
    timestampWrites (checkAllServices env d).1 = [] ∧
    ((checkAllServices env d).2 = [] ∨ (checkAllServices env d).2 = launch d.services) := by
  unfold checkAllServices ListServices
  cases env.dbErr .ListServices <;> simp [timestampWrites]

theorem tick_own (env : Env) (d : DB) :
    timestampWrites (tick env d).1 = [] ∧
    ((tick env d).2 = [] ∨ (tick env d).2 = launch d.services) := by
  have hc := checkAllServices_own env d
  have hi : timestampWrites (IsUserActive env).1 = [] := by
    unfold IsUserActive
    rcases env.who with ⟨out, _ | err⟩ <;> simp [timestampWrites]
  have hg : timestampWrites (match (GetPauseConfig env d).2 with
      | some err => [Event.db .GetPauseConfig, Event.log ("Error reading pause config: " ++ err)]
      | none => [Event.db .GetPauseConfig]) = [] := by
    cases (GetPauseConfig env d).2 <;> simp [timestampWrites]
  unfold tick
  cases h1 : (GetPauseConfig env d).1 <;> cases h3 : (IsUserActive env).2
  all_goals simp [h1, h3, timestampWrites_append, hc.1, hi, hc.2, hg]
  simp [timestampWrites]

end monitor

namespace scheduler

open db

theorem registrations_loadLoop (env : Env) (l : List Service) (c : Cron) :
    registrations (loadLoop env l c).1 =
      (l.filter fun s => s.Enabled && decide (s.CronSchedule ≠ "")).map
        fun s => (s.CronSchedule, s) := by
  induction l generalizing c with
  | nil => simp [loadLoop, registrations]
  | cons s rest ih =>
    by_cases h1 : s.CronSchedule = ""
    · simp [loadLoop, h1, ih]
    · cases h2 : s.Enabled
      · simp [loadLoop, h2, ih]
      · have ih2 := ih (c.AddFunc env s.CronSchedule s).2
        cases h3 : env.parse s.CronSchedule with
        | some err =>
          simp only [Cron.AddFunc, h3] at ih2
          simp only [registrations] at ih2 ⊢
          simp [loadLoop, h1, h2, h3, Cron.AddFunc, ih2]
        | none =>
          simp only [Cron.AddFunc, h3] at ih2
          simp only [registrations] at ih2 ⊢
          simp [loadLoop, h1, h2, h3, Cron.AddFunc, ih2]

theorem entries_loadLoop (env : Env) (l : List Service) (c : Cron) :
    (loadLoop env l c).2.entries.map (fun e => (e.Spec, e.svc)) =
      c.entries.map (fun e => (e.Spec, e.svc)) ++
      (l.filter fun s => s.Enabled && decide (s.CronSchedule ≠ "")
          && decide (env.parse s.CronSchedule = none)).map
        fun s => (s.CronSchedule, s) := by
  induction l generalizing c with
  | nil => simp [loadLoop]
  | cons s rest ih =>
    by_cases h1 : s.CronSchedule = ""
    · simp [loadLoop, h1, ih]
    · cases h2 : s.Enabled
      · simp [loadLoop, h2, ih]
      · have ih2 := ih (c.AddFunc env s.CronSchedule s).2
        cases h3 : env.parse s.CronSchedule with
        | some err =>
          simp only [Cron.AddFunc, h3] at ih2
          simp [loadLoop, h1, h2, h3, Cron.AddFunc, ih2]
        | none =>
          simp only [Cron.AddFunc, h3] at ih2
          simp [loadLoop, h1, h2, h3, Cron.AddFunc, ih2]

end scheduler

open db in
/-- A row with enabled false gets no unit, no timestamp write, no registration
and no trigger. -/
theorem disabled_service_skipped (env : Env) (d : DB) (s : Service)
    (hs : s ∈ d.services) (hd : s.Enabled = false) :
    s ∉ (monitor.checkAllServices env d).2 ∧
    s ∉ (monitor.tick env d).2 ∧
    ((∀ r ∈ d.services, r.ID = s.ID → r = s) →
      Query.UpdateLastChecked s.ID ∉ timestampWrites (monitor.runTick env d).1 ∧
      Query.UpdateLastRestarted s.ID ∉ timestampWrites (monitor.runTick env d).1 ∧
      s ∈ (monitor.runTick env d).2.services) ∧
    (∀ c spec, (spec, s) ∉ registrations (scheduler.loadJobs env d c).1.1) ∧
    (∀ c, (∀ e ∈ c.entries, e.svc ≠ s) →
      ∀ e ∈ (scheduler.loadJobs env d c).2.entries, e.svc ≠ s) ∧
    (∀ c, (scheduler.Start env d).2 = some c → ∀ e ∈ c.entries, e.svc ≠ s) := by
  have hnl : s ∉ monitor.launch d.services := by
    intro h
    have := (monitor.mem_launch.mp h).2
    rw [hd] at this
    exact absurd this (by decide)
  have hload : ∀ c, (∀ e ∈ c.entries, e.svc ≠ s) →
      ∀ e ∈ (scheduler.loadJobs env d c).2.entries, e.svc ≠ s := by
    intro c hc e he hes
    unfold scheduler.loadJobs ListServices at he
    cases hl : env.dbErr .ListServices with
    | some err =>
      simp only [hl] at he
      exact hc e he hes
    | none =>
      simp only [hl] at he
      have hm : (e.Spec, e.svc) ∈
          (scheduler.loadLoop env d.services c).2.entries.map (fun e => (e.Spec, e.svc)) :=
        List.mem_map.mpr ⟨e, he, rfl⟩
      rw [scheduler.entries_loadLoop, List.mem_append] at hm
      rcases hm with hm | hm
      · obtain ⟨e2, he2, heq⟩ := List.mem_map.mp hm
        have h3 : e2.svc = e.svc := congrArg Prod.snd heq
        exact hc e2 he2 (h3.trans hes)
      · obtain ⟨u, hu, heq⟩ := List.mem_map.mp hm
        have h3 : u = e.svc := congrArg Prod.snd heq
        have h4 := (List.mem_filter.mp hu).2
        rw [h3, hes, hd] at h4
        simp at h4
  refine ⟨?_, ?_, ?_, ?_, hload, ?_⟩
  · rcases (monitor.checkAllServices_own env d).2 with h | h <;> rw [h]
    · simp
    · exact hnl
  · rcases (monitor.tick_own env d).2 with h | h <;> rw [h]
    · simp
    · exact hnl
  · intro hid
    have hu : ∀ u ∈ (monitor.tick env d).2, s.ID ≠ u.ID := by
      intro u hu hne
      rcases (monitor.tick_own env d).2 with h | h
      · rw [h] at hu
        simp at hu
      · rw [h] at hu
        have hm := monitor.mem_launch.mp hu
        have := hid u hm.1 hne.symm
        rw [this, hd] at hm
        exact absurd hm.2 (by decide)
    have hr := monitor.runUnits_untouched env s (monitor.tick env d).2 hu d hs
    simp only [monitor.runTick, monitor.timestampWrites_append, (monitor.tick_own env d).1,
      List.nil_append]
    exact ⟨hr.2.1, hr.2.2, hr.1⟩
  · intro c spec hm
    unfold scheduler.loadJobs ListServices at hm
    cases hl : env.dbErr .ListServices with
    | some err => simp [hl, registrations] at hm
    | none =>
      simp only [hl] at hm
      have h2 : registrations (Event.db Query.ListServices ::
          (scheduler.loadLoop env d.services c).1)
          = registrations (scheduler.loadLoop env d.services c).1 := by
        simp [registrations]
      rw [h2, scheduler.registrations_loadLoop] at hm
      obtain ⟨u, hu, heq⟩ := List.mem_map.mp hm
      have h3 : u = s := congrArg Prod.snd heq
      have h4 := (List.mem_filter.mp hu).2
      rw [h3, hd] at h4
      simp at h4
  · intro c hc e he
    simp only [scheduler.Start, Option.some.injEq] at hc
    rw [← hc] at he
    simp only [scheduler.Cron.Start] at he
    exact hload scheduler.New (by simp [scheduler.New]) e he

namespace scheduler

open db

/-- C5: a firing for a service whose status command is non-empty and fails
runs the status command and no other command (so the restart command zero
times), sends no timestamp write, in particular no restarted write, and leaves
the registry, hence every restarted timestamp, as it was. -/
theorem safeRestart_status_failed (env : Env) (s : Service) (d : DB)
    (h1 : s.StatusCommand ≠ "") (h2 : env.sh s.StatusCommand ≠ none) :
    commandsRun (safeRestart env s d).1 = [s.StatusCommand] ∧
    actions (safeRestart env s d).1 = [Event.runCommand s.StatusCommand] ∧
    timestampWrites (safeRestart env s d).1 = [] ∧
    (∀ id, Event.db (.UpdateLastRestarted id) ∉ (safeRestart env s d).1) ∧
    (safeRestart env s d).2 = d := by
  obtain ⟨e, he⟩ := Option.ne_none_iff_exists'.mp h2
  have ht : safeRestart env s d =
      ([Event.log ("[Scheduler] Triggered scheduled restart for " ++ s.Name),
        Event.runCommand s.StatusCommand,
        Event.log ("[Scheduler] Skipping restart for " ++ s.Name
          ++ ": Status check failed (not running?)")], d) := by
    simp [safeRestart, runCommand, h1, he]
  rw [ht]
  refine ⟨rfl, rfl, rfl, ?_, rfl⟩
  intro id
  simp

/-- C5, on the scenario: service `cache` with status command `exit 1` and
schedule `@daily`. -/
theorem safeRestart_status_failed_witness :
    commandsRun (safeRestart exitEnv cache fullRegistry).1 = ["exit 1"] ∧
    actions (safeRestart exitEnv cache fullRegistry).1 = [Event.runCommand "exit 1"] ∧
    timestampWrites (safeRestart exitEnv cache fullRegistry).1 = [] ∧
    (∀ id, Event.db (.UpdateLastRestarted id) ∉ (safeRestart exitEnv cache fullRegistry).1) ∧
    (safeRestart exitEnv cache fullRegistry).2 = fullRegistry :=
  safeRestart_status_failed exitEnv cache fullRegistry (by decide) (by decide)

/-- C6: a firing for a service whose status command is the empty string runs
exactly one command, the restart command, whatever its other fields are: no
status check is run. The restarted write follows when the restart succeeded. -/
theorem safeRestart_blind (env : Env) (s : Service) (d : DB)
    (h : s.StatusCommand = "") :
    commandsRun (safeRestart env s d).1 = [s.RestartCommand] ∧
    actions (safeRestart env s d).1 =
      Event.runCommand s.RestartCommand ::
        (if env.sh s.RestartCommand = none then [Event.db (.UpdateLastRestarted s.ID)]
         else []) := by
  cases hr : env.sh s.RestartCommand <;>
    simp [safeRestart, runCommand, h, hr, commandsRun, actions]

/-- C6, on a service without status command whose restart command fails. -/
theorem safeRestart_blind_witness :
    commandsRun (safeRestart exitEnv stuck fullRegistry).1 = ["exit 2"] ∧
    actions (safeRestart exitEnv stuck fullRegistry).1 =
      Event.runCommand "exit 2" ::
        (if exitEnv.sh "exit 2" = none then [Event.db (.UpdateLastRestarted 5)] else []) :=
  safeRestart_blind exitEnv stuck fullRegistry (by decide)

end scheduler

/-- C7 as stated fails for the monitor loop: the first `Stop` closes the stop
channel, and `Stop` on the loop stopped that way panics. -/
theorem monitor_Stop_twice_panics :
    monitor.Stop monitor.init = .ok { stopChanClosed := true } ∧
    monitor.Stop { stopChanClosed := true } = .error "close of closed channel" ∧
    ¬ (∀ m : monitor.State, m.stopChanClosed = true → monitor.Stop m = .ok m) := by
  refine ⟨rfl, rfl, ?_⟩
  intro h
  have := h { stopChanClosed := true } rfl
  simp [monitor.Stop] at this

/-- C7, amended: `Stop` of the engine is idempotent, on a never-started engine
(it does nothing) and on an already-stopped one (it completes and leaves the
engine as it is), and it leaves any engine stopped; `Stop` of the monitor loop
completes, leaving the stop channel closed, exactly when the channel has not
been closed before, and panics on a loop that was already stopped. -/
theorem Stop_idempotent_engine_once_monitor :
    scheduler.Stop none = .ok none ∧
    (∀ c : scheduler.Cron, c.running = false → scheduler.Stop (some c) = .ok (some c)) ∧
    (∀ c : scheduler.Cron, ∃ c2 : scheduler.Cron, c2.running = false ∧
      c2.entries = c.entries ∧
      scheduler.Stop (some c) = .ok (some c2) ∧ scheduler.Stop (some c2) = .ok (some c2)) ∧
    (∀ m : monitor.State, m.stopChanClosed = false →
      monitor.Stop m = .ok { stopChanClosed := true }) ∧
    (∀ m : monitor.State, m.stopChanClosed = true →
      monitor.Stop m = .error "close of closed channel") := by
  refine ⟨rfl, ?_, ?_, ?_, ?_⟩
  · intro c hc
    simp [scheduler.Stop, scheduler.Cron.Stop, hc]
  · intro c
    refine ⟨c.Stop, ?_, ?_, rfl, ?_⟩
    · cases hc : c.running <;> simp [scheduler.Cron.Stop, hc]
    · cases hc : c.running <;> simp [scheduler.Cron.Stop, hc]
    · cases hc : c.running <;> simp [scheduler.Stop, scheduler.Cron.Stop, hc]
  · intro m hm
    simp [monitor.Stop, hm]
  · intro m hm
    simp [monitor.Stop, hm]

/-- C7, amended, on the engine started on the five-service registry and
stopped once, and on the monitor loop at process start. -/
theorem Stop_idempotent_engine_once_monitor_witness :
    scheduler.Stop (some (scheduler.loadJobs exitEnv fullRegistry scheduler.New).2)
      = .ok (some (scheduler.loadJobs exitEnv fullRegistry scheduler.New).2) ∧
    monitor.Stop monitor.init = .ok { stopChanClosed := true } :=
  ⟨Stop_idempotent_engine_once_monitor.2.1 _ (by decide),
   Stop_idempotent_engine_once_monitor.2.2.2.1 monitor.init (by decide)⟩

open db in
/-- C8: on either path a failing restart command is invoked once and not
retried, and no restarted write is sent. In the loop unit, after a failed check
and a failed restart the effects are the check, the checked write and the one
restart invocation, and the registry holds only the checked write. In the
engine firing, after a passed or absent status guard and a failed restart the
effects are the status command (when there is one) and the one restart
invocation, and the registry is as it was. Conversely, on both paths a
restarted write is for the service of the unit, the restart command succeeded,
and the write comes right after the invocation of the restart command. -/
theorem restart_failure_not_retried (env : Env) (s : Service) (d : DB) :
    (env.sh s.CheckCommand ≠ none → env.sh s.RestartCommand ≠ none →
      actions (monitor.checkAndRestart env s d).1 =
        [Event.runCommand s.CheckCommand, Event.db (.UpdateLastChecked s.ID),
         Event.runCommand s.RestartCommand] ∧
      (monitor.checkAndRestart env s d).2 = (UpdateLastChecked env s.ID d).2) ∧
    ((s.StatusCommand = "" ∨ env.sh s.StatusCommand = none) →
      env.sh s.RestartCommand ≠ none →
      actions (scheduler.safeRestart env s d).1 =
        (if s.StatusCommand = "" then [] else [Event.runCommand s.StatusCommand])
          ++ [Event.runCommand s.RestartCommand] ∧
      (scheduler.safeRestart env s d).2 = d) ∧
    (∀ id, Event.db (.UpdateLastRestarted id) ∈ (monitor.checkAndRestart env s d).1 →
      id = s.ID ∧ env.sh s.RestartCommand = none ∧
      [Event.runCommand s.RestartCommand, Event.db (.UpdateLastRestarted s.ID)]
        <:+ actions (monitor.checkAndRestart env s d).1) ∧
    (∀ id, Event.db (.UpdateLastRestarted id) ∈ (scheduler.safeRestart env s d).1 →
      id = s.ID ∧ env.sh s.RestartCommand = none ∧
      [Event.runCommand s.RestartCommand, Event.db (.UpdateLastRestarted s.ID)]
        <:+ actions (scheduler.safeRestart env s d).1) := by
  refine ⟨?_, ?_, ?_, ?_⟩
  · intro hc hr
    obtain ⟨e1, he1⟩ := Option.ne_none_iff_exists'.mp hc
    obtain ⟨e2, he2⟩ := Option.ne_none_iff_exists'.mp hr
    simp [monitor.checkAndRestart, monitor.runCommand, he1, he2, actions]
  · intro hg hr
    obtain ⟨e2, he2⟩ := Option.ne_none_iff_exists'.mp hr
    by_cases h1 : s.StatusCommand = ""
    · simp [scheduler.safeRestart, scheduler.runCommand, h1, he2, actions]
    · have h3 : env.sh s.StatusCommand = none := hg.resolve_left h1
      simp [scheduler.safeRestart, scheduler.runCommand, h1, h3, he2, actions]
  · intro id hm
    unfold monitor.checkAndRestart monitor.runCommand at hm ⊢
    cases h1 : env.sh s.CheckCommand <;> cases h2 : env.sh s.RestartCommand <;>
      simp [h1, h2] at hm
    subst hm
    refine ⟨rfl, rfl, ?_⟩
    simp only [actions]
    exact ⟨[Event.runCommand s.CheckCommand, Event.db (.UpdateLastChecked s.ID)], rfl⟩
  · intro id hm
    unfold scheduler.safeRestart scheduler.runCommand at hm ⊢
    by_cases h0 : s.StatusCommand = "" <;> cases h1 : env.sh s.StatusCommand <;>
      cases h2 : env.sh s.RestartCommand <;> simp [h0, h1, h2] at hm
    all_goals subst hm
    all_goals refine ⟨rfl, rfl, ?_⟩
    all_goals simp [h0, h1, h2, actions]

open db in
/-- C8, on the service `stuck`, whose check and restart commands both fail and
which has no status command. -/
theorem restart_failure_not_retried_witness :
    (actions (monitor.checkAndRestart exitEnv stuck fullRegistry).1 =
        [Event.runCommand "exit 1", Event.db (.UpdateLastChecked 5),
         Event.runCommand "exit 2"] ∧
      (monitor.checkAndRestart exitEnv stuck fullRegistry).2
        = (UpdateLastChecked exitEnv 5 fullRegistry).2) ∧
    (actions (scheduler.safeRestart exitEnv stuck fullRegistry).1 =
        [Event.runCommand "exit 2"] ∧
      (scheduler.safeRestart exitEnv stuck fullRegistry).2 = fullRegistry) :=
  ⟨(restart_failure_not_retried exitEnv stuck fullRegistry).1 (by decide) (by decide),
   (restart_failure_not_retried exitEnv stuck fullRegistry).2.1 (by decide) (by decide)⟩

namespace scheduler

open db

/-- C9: when the list of services is read, `loadJobs` returns no error and
attempts one registration per service that is enabled and has a non-empty
schedule, in list order and keyed to that schedule, and none for a service with
an empty schedule. The triggers added to the cron instance are those of the
attempts whose expression the parser accepts: a rejected expression leaves out
that attempt only, and every enabled service with an accepted non-empty
schedule has its trigger whatever the parser says of the others. -/
theorem loadJobs_registers (env : Env) (d : DB) (c : Cron)
    (hl : env.dbErr .ListServices = none) :
    (loadJobs env d c).1.2 = none ∧
    registrations (loadJobs env d c).1.1 =
      (d.services.filter fun s => s.Enabled && decide (s.CronSchedule ≠ "")).map
        (fun s => (s.CronSchedule, s)) ∧
    (∀ s spec, s.CronSchedule = "" → (spec, s) ∉ registrations (loadJobs env d c).1.1) ∧
    (loadJobs env d c).2.entries.map (fun e => (e.Spec, e.svc)) =
      c.entries.map (fun e => (e.Spec, e.svc)) ++
      (d.services.filter fun s => s.Enabled && decide (s.CronSchedule ≠ "")
          && decide (env.parse s.CronSchedule = none)).map
        (fun s => (s.CronSchedule, s)) ∧
    (∀ s ∈ d.services, s.Enabled = true → s.CronSchedule ≠ "" →
      env.parse s.CronSchedule = none →
      ∃ e ∈ (loadJobs env d c).2.entries, e.Spec = s.CronSchedule ∧ e.svc = s) := by
  have hr : registrations (loadJobs env d c).1.1 =
      (d.services.filter fun s => s.Enabled && decide (s.CronSchedule ≠ "")).map
        (fun s => (s.CronSchedule, s)) := by
    rw [← registrations_loadLoop env d.services c]
    simp [loadJobs, ListServices, hl, registrations]
  have he : (loadJobs env d c).2.entries.map (fun e => (e.Spec, e.svc)) =
      c.entries.map (fun e => (e.Spec, e.svc)) ++
      (d.services.filter fun s => s.Enabled && decide (s.CronSchedule ≠ "")
          && decide (env.parse s.CronSchedule = none)).map
        (fun s => (s.CronSchedule, s)) := by
    rw [← entries_loadLoop env d.services c]
    simp [loadJobs, ListServices, hl]
  refine ⟨by simp [loadJobs, ListServices, hl], hr, ?_, he, ?_⟩
  · intro s spec hs hm
    rw [hr] at hm
    obtain ⟨u, hu, heq⟩ := List.mem_map.mp hm
    have h3 : u = s := congrArg Prod.snd heq
    have h4 := (List.mem_filter.mp hu).2
    rw [h3] at h4
    simp [hs] at h4
  · intro s hs h1 h2 h3
    have hm : (s.CronSchedule, s) ∈
        (loadJobs env d c).2.entries.map (fun e => (e.Spec, e.svc)) := by
      rw [he]
      apply List.mem_append_right
      exact List.mem_map.mpr ⟨s, List.mem_filter.mpr ⟨hs, by simp [h1, h2, h3]⟩, rfl⟩
    obtain ⟨e, hmem, heq⟩ := List.mem_map.mp hm
    exact ⟨e, hmem, congrArg Prod.fst heq, congrArg Prod.snd heq⟩

/-- C9, on the five-service registry with a parser that rejects `@daily`: the
disabled service and the two without schedule are not attempted, `cache` is
attempted and rejected, `stuck` is registered. -/
theorem loadJobs_registers_witness :
    (loadJobs strictEnv fullRegistry New).1.2 = none ∧
    registrations (loadJobs strictEnv fullRegistry New).1.1 =
      [("@daily", cache), ("0 3 * * *", stuck)] ∧
    (∀ s spec, s.CronSchedule = "" →
      (spec, s) ∉ registrations (loadJobs strictEnv fullRegistry New).1.1) ∧
    (loadJobs strictEnv fullRegistry New).2.entries.map (fun e => (e.Spec, e.svc)) =
      [("0 3 * * *", stuck)] ∧
    (∀ s ∈ fullRegistry.services, s.Enabled = true → s.CronSchedule ≠ "" →
      strictEnv.parse s.CronSchedule = none →
      ∃ e ∈ (loadJobs strictEnv fullRegistry New).2.entries,
        e.Spec = s.CronSchedule ∧ e.svc = s) :=
  loadJobs_registers strictEnv fullRegistry New (by decide)

end scheduler

namespace monitor

open db

/-- C10: in every check-and-restart unit, whatever the check command returns,
the effects are the check, then the checked write, then, only when the check
failed, the restart command, then, only when that succeeded, the restarted
write; the checked write is issued exactly once and no command runs between
the check and it. -/
theorem checkAndRestart_trace (env : Env) (s : Service) (d : DB) :
    actions (checkAndRestart env s d).1 =
      [Event.runCommand s.CheckCommand, Event.db (.UpdateLastChecked s.ID)] ++
        (if env.sh s.CheckCommand = none then []
         else Event.runCommand s.RestartCommand ::
           (if env.sh s.RestartCommand = none then [Event.db (.UpdateLastRestarted s.ID)]
            else [])) ∧
    (checkAndRestart env s d).1.count (Event.db (.UpdateLastChecked s.ID)) = 1 ∧
    (timestampWrites (checkAndRestart env s d).1).count (.UpdateLastChecked s.ID) = 1 := by
  unfold checkAndRestart runCommand
  cases h1 : env.sh s.CheckCommand <;> cases h2 : env.sh s.RestartCommand <;>
    simp [actions, timestampWrites, List.count_cons]

end monitor

namespace monitor

open db

theorem launch_eq_filter (l : List Service) : launch l = l.filter fun s => s.Enabled := by
  induction l with
  | nil => rfl
  | cons a l ih => cases h : a.Enabled <;> simp [launch, h, ih]

/-- C11: on a tick that Smart Pause does not skip (it is not the case that the
pause configuration reads enabled and a user is active) and whose read of the
service list succeeds, the coordinator reaches `checkAllServices` and the units
it launches are the records of the list with enabled true, each once per row
and in list order, and no other; a failed read of the pause configuration
counts as pause off. -/
theorem tick_launches_enabled (env : Env) (d : DB)
    (hskip : ¬ ((GetPauseConfig env d).1 = true ∧ (IsUserActive env).2 = true))
    (hl : env.dbErr .ListServices = none) :
    (tick env d).2 = d.services.filter (fun s => s.Enabled) ∧
    (checkAllServices env d).2 = d.services.filter (fun s => s.Enabled) ∧
    (∀ s, s ∈ (tick env d).2 ↔ s ∈ d.services ∧ s.Enabled = true) ∧
    (∀ s, (tick env d).2.count s = if s.Enabled = true then d.services.count s else 0) ∧
    Event.db .ListServices ∈ (tick env d).1 ∧
    ((GetPauseConfig env d).2 ≠ none → (GetPauseConfig env d).1 = false) := by
  have hc : checkAllServices env d = ([Event.db .ListServices], launch d.services) := by
    simp [checkAllServices, ListServices, hl]
  have ht : (tick env d).2 = d.services.filter (fun s => s.Enabled) ∧
      Event.db .ListServices ∈ (tick env d).1 := by
    unfold tick
    cases h1 : (GetPauseConfig env d).1
    · simp [h1, hc, launch_eq_filter]
    · cases h3 : (IsUserActive env).2
      · simp [h1, h3, hc, launch_eq_filter]
      · exact absurd ⟨h1, h3⟩ hskip
  refine ⟨ht.1, by rw [hc, launch_eq_filter], ?_, ?_, ht.2, ?_⟩
  · intro s
    rw [ht.1, List.mem_filter]
  · intro s
    rw [ht.1]
    cases hs : s.Enabled
    · simp only [Bool.false_eq_true, if_false, List.count_eq_zero, List.mem_filter, not_and]
      intro _
      simp [hs]
    · simp only [if_true]
      exact List.count_filter (by simp [hs])
  · intro he
    unfold GetPauseConfig at he ⊢
    cases h : env.dbErr .GetPauseConfig with
    | some err => rfl
    | none =>
      simp only [h] at he
      cases h2 : d.app_config.lookup "pause_on_active_user" <;> simp [h2] at he

/-- C11, on the five-service registry with nobody logged in: the four enabled
records are launched, the disabled one is not. -/
theorem tick_launches_enabled_witness :
    (tick exitEnv fullRegistry).2 = [web, cache, stuck, dbSvc] ∧
    (checkAllServices exitEnv fullRegistry).2 = [web, cache, stuck, dbSvc] ∧
    (∀ s, s ∈ (tick exitEnv fullRegistry).2 ↔ s ∈ fullRegistry.services ∧ s.Enabled = true) ∧
    (∀ s, (tick exitEnv fullRegistry).2.count s =
      if s.Enabled = true then fullRegistry.services.count s else 0) ∧
    Event.db .ListServices ∈ (tick exitEnv fullRegistry).1 ∧
    ((GetPauseConfig exitEnv fullRegistry).2 ≠ none →
      (GetPauseConfig exitEnv fullRegistry).1 = false) :=
  tick_launches_enabled exitEnv fullRegistry (by decide) (by decide)

end monitor

namespace scheduler

open db

theorem entries_loadJobs (env : Env) (d : DB) (c : Cron)
    (hl : env.dbErr .ListServices = none) :
    (loadJobs env d c).2.entries.map (fun e => (e.Spec, e.svc)) =
      c.entries.map (fun e => (e.Spec, e.svc)) ++
      (d.services.filter fun s => s.Enabled && decide (s.CronSchedule ≠ "")
          && decide (env.parse s.CronSchedule = none)).map
        (fun s => (s.CronSchedule, s)) := by
  rw [← entries_loadLoop env d.services c]
  simp [loadJobs, ListServices, hl]

theorem registered_of_accepted (env : Env) (d : DB) (c : Cron) (s : Service)
    (hl : env.dbErr .ListServices = none) (hs : s ∈ d.services) (he : s.Enabled = true)
    (hne : s.CronSchedule ≠ "") (hp : env.parse s.CronSchedule = none) :
    ∃ e ∈ (loadJobs env d c).2.entries, e.Spec = s.CronSchedule ∧ e.svc = s := by
  have hm : (s.CronSchedule, s) ∈
      (loadJobs env d c).2.entries.map (fun e => (e.Spec, e.svc)) := by
    rw [entries_loadJobs env d c hl]
    apply List.mem_append_right
    exact List.mem_map.mpr ⟨s, List.mem_filter.mpr ⟨hs, by simp [he, hne, hp]⟩, rfl⟩
  obtain ⟨e, hmem, heq⟩ := List.mem_map.mp hm
  exact ⟨e, hmem, congrArg Prod.fst heq, congrArg Prod.snd heq⟩

theorem not_registered_of_rejected (env : Env) (d : DB) (s : Service)
    (hp : env.parse s.CronSchedule ≠ none) :
    ∀ e ∈ (loadJobs env d New).2.entries, e.svc ≠ s := by
  intro e he hes
  unfold loadJobs ListServices at he
  cases hl : env.dbErr .ListServices with
  | some err => simp [hl, New] at he
  | none =>
    simp only [hl] at he
    have hm : (e.Spec, e.svc) ∈
        (loadLoop env d.services New).2.entries.map (fun e => (e.Spec, e.svc)) :=
      List.mem_map.mpr ⟨e, he, rfl⟩
    rw [entries_loadLoop] at hm
    simp only [New, List.map_nil, List.nil_append] at hm
    obtain ⟨u, hu, heq⟩ := List.mem_map.mp hm
    have h3 : u = e.svc := congrArg Prod.snd heq
    have h4 := (List.mem_filter.mp hu).2
    rw [h3, hes] at h4
    simp [hp] at h4

theorem normalizeFields_standard_count (fields : List String) (h : fields.length ≠ 5) :
    ∃ err, (normalizeFields fields standardParser).2 = some err := by
  have h2 : fields.length < 5 ∨ fields.length > 5 := by omega
  simp [normalizeFields, standardParser, h2]

theorem Parse_standard_count (lib : Lib) (spec : String)
    (h1 : HasPrefix spec "TZ=" = false) (h2 : HasPrefix spec "CRON_TZ=" = false)
    (h3 : HasPrefix spec "@" = false) (h : (Fields spec).length ≠ 5) :
    Parse standardParser lib spec ≠ none := by
  obtain ⟨err, herr⟩ := normalizeFields_standard_count (Fields spec) h
  unfold Parse
  by_cases h0 : spec = ""
  · simp [h0]
  · rcases hn : normalizeFields (Fields spec) standardParser with ⟨fs, e⟩
    rw [hn] at herr
    simp only at herr
    subst herr
    simp [h0, h1, h2, h3]

theorem Parse_standard_five (lib : Lib) (spec mi ho dm mo dw : String)
    (h1 : HasPrefix spec "TZ=" = false) (h2 : HasPrefix spec "CRON_TZ=" = false)
    (h3 : HasPrefix spec "@" = false) (h : Fields spec = [mi, ho, dm, mo, dw])
    (g0 : lib.getField 0 "0" = none) (g1 : lib.getField 1 mi = none)
    (g2 : lib.getField 2 ho = none) (g3 : lib.getField 3 dm = none)
    (g4 : lib.getField 4 mo = none) (g5 : lib.getField 5 dw = none) :
    spec ≠ "" ∧ Parse standardParser lib spec = none := by
  have h0 : spec ≠ "" := by
    intro h0
    rw [h0] at h
    have hnil : Fields "" = [] := rfl
    rw [hnil] at h
    exact List.noConfusion h
  have hn : normalizeFields [mi, ho, dm, mo, dw] standardParser
      = (["0", mi, ho, dm, mo, dw], none) := by
    simp [normalizeFields, standardParser, expandFields]
  refine ⟨h0, ?_⟩
  unfold Parse
  simp [h0, h1, h2, h3, h, hn, parseFields, g0, g1, g2, g3, g4, g5]

theorem Parse_standard_shortcut (lib : Lib) (spec : String)
    (h : spec ∈ ["@yearly", "@annually", "@monthly", "@weekly", "@daily", "@midnight",
      "@hourly"]) :
    spec ≠ "" ∧ Parse standardParser lib spec = none := by
  simp only [List.mem_cons, List.mem_singleton, List.not_mem_nil, or_false] at h
  rcases h with h | h | h | h | h | h | h <;> subst h <;> exact ⟨by decide, rfl⟩

end scheduler

namespace scheduler

open db

/-- C12 as stated fails on expressions of six fields: with the parser that
`cron.New()` installs, even with a field parser that accepts every field text,
the enabled service `nightly` with schedule `0 0 3 * * *` gets the error
"expected exactly 5 fields" from `AddFunc` and no trigger from `loadJobs`, while
the two other services of the registry are registered. The same expression
passes a parser that includes the seconds field. -/
theorem six_field_schedule_rejected :
    nightly ∈ cronRegistry.services ∧ nightly.Enabled = true ∧
    Fields nightly.CronSchedule = ["0", "0", "3", "*", "*", "*"] ∧
    cronEnv.parse nightly.CronSchedule
      = some "expected exactly 5 fields, found 6: [0 0 3 * * *]" ∧
    (Cron.AddFunc cronEnv New nightly.CronSchedule nightly).1.2 ≠ none ∧
    (loadJobs cronEnv cronRegistry New).2.entries.map (fun e => e.svc) = [cache, stuck] ∧
    Parse secondsParser openLib nightly.CronSchedule = none := by
  decide

/-- C12, amended: with the parser that `cron.New()` installs, `loadJobs`
registers a trigger for every enabled service of the list whose schedule is a
named shortcut (`@yearly`, `@annually`, `@monthly`, `@weekly`, `@daily`,
`@midnight`, `@hourly`), and for every enabled service whose schedule has
exactly five fields (minute, hour, day of month, month, day of week), each
accepted by the field parser: `AddFunc` returns no error. An expression
without time zone and not a descriptor whose number of fields is not five, so
an expression of six fields with seconds, is rejected by `AddFunc` and gets no
trigger. -/
theorem loadJobs_accepted_shapes (env : Env) (lib : Lib) (d : DB)
    (hp : env.parse = Parse standardParser lib) (hl : env.dbErr .ListServices = none) :
    (∀ s ∈ d.services, s.Enabled = true →
      s.CronSchedule ∈ ["@yearly", "@annually", "@monthly", "@weekly", "@daily",
        "@midnight", "@hourly"] →
      env.parse s.CronSchedule = none ∧
      ∀ c, ∃ e ∈ (loadJobs env d c).2.entries, e.Spec = s.CronSchedule ∧ e.svc = s) ∧
    (∀ s ∈ d.services, s.Enabled = true →
      HasPrefix s.CronSchedule "TZ=" = false → HasPrefix s.CronSchedule "CRON_TZ=" = false →
      HasPrefix s.CronSchedule "@" = false →
      ∀ mi ho dm mo dw, Fields s.CronSchedule = [mi, ho, dm, mo, dw] →
      lib.getField 0 "0" = none → lib.getField 1 mi = none → lib.getField 2 ho = none →
      lib.getField 3 dm = none → lib.getField 4 mo = none → lib.getField 5 dw = none →
      env.parse s.CronSchedule = none ∧
      ∀ c, ∃ e ∈ (loadJobs env d c).2.entries, e.Spec = s.CronSchedule ∧ e.svc = s) ∧
    (∀ s : Service,
      HasPrefix s.CronSchedule "TZ=" = false → HasPrefix s.CronSchedule "CRON_TZ=" = false →
      HasPrefix s.CronSchedule "@" = false → (Fields s.CronSchedule).length ≠ 5 →
      env.parse s.CronSchedule ≠ none ∧
      (∀ c, (Cron.AddFunc env c s.CronSchedule s).2 = c) ∧
      ∀ e ∈ (loadJobs env d New).2.entries, e.svc ≠ s) := by
  refine ⟨?_, ?_, ?_⟩
  · intro s hs he hsc
    have h := Parse_standard_shortcut lib s.CronSchedule hsc
    have hpn : env.parse s.CronSchedule = none := by rw [hp]; exact h.2
    exact ⟨hpn, fun c => registered_of_accepted env d c s hl hs he h.1 hpn⟩
  · intro s hs he h1 h2 h3 mi ho dm mo dw hf g0 g1 g2 g3 g4 g5
    have h := Parse_standard_five lib s.CronSchedule mi ho dm mo dw h1 h2 h3 hf
      g0 g1 g2 g3 g4 g5
    have hpn : env.parse s.CronSchedule = none := by rw [hp]; exact h.2
    exact ⟨hpn, fun c => registered_of_accepted env d c s hl hs he h.1 hpn⟩
  · intro s h1 h2 h3 hlen
    have hpn : env.parse s.CronSchedule ≠ none := by
      rw [hp]
      exact Parse_standard_count lib s.CronSchedule h1 h2 h3 hlen
    refine ⟨hpn, ?_, not_registered_of_rejected env d s hpn⟩
    intro c
    obtain ⟨err, herr⟩ := Option.ne_none_iff_exists'.mp hpn
    simp [Cron.AddFunc, herr]

/-- C12, amended, on the registry with the shortcut `@daily` (service `cache`),
the five-field expression `0 3 * * *` (service `stuck`) and the six-field
expression `0 0 3 * * *` (service `nightly`). -/
theorem loadJobs_accepted_shapes_witness :
    (cronEnv.parse "@daily" = none ∧
      ∀ c, ∃ e ∈ (loadJobs cronEnv cronRegistry c).2.entries,
        e.Spec = "@daily" ∧ e.svc = cache) ∧
    (cronEnv.parse "0 3 * * *" = none ∧
      ∀ c, ∃ e ∈ (loadJobs cronEnv cronRegistry c).2.entries,
        e.Spec = "0 3 * * *" ∧ e.svc = stuck) ∧
    (cronEnv.parse "0 0 3 * * *" ≠ none ∧
      (∀ c, (Cron.AddFunc cronEnv c "0 0 3 * * *" nightly).2 = c) ∧
      ∀ e ∈ (loadJobs cronEnv cronRegistry New).2.entries, e.svc ≠ nightly) := by
  have h := loadJobs_accepted_shapes cronEnv openLib cronRegistry rfl (by decide)
  exact ⟨h.1 cache (by decide) (by decide) (by decide),
    h.2.1 stuck (by decide) (by decide) (by decide) (by decide) (by decide)
      "0" "3" "*" "*" "*" (by decide) rfl rfl rfl rfl rfl rfl,
    h.2.2 nightly (by decide) (by decide) (by decide) (by decide)⟩

end scheduler

namespace monitor

open db

theorem commandsRun_append (a b : List Event) :
    commandsRun (a ++ b) = commandsRun a ++ commandsRun b := by
  simp [commandsRun, List.filterMap_append]

theorem checkAllServices_commands (env : Env) (d : DB) :
    commandsRun (checkAllServices env d).1 = [] := by
  unfold checkAllServices ListServices
  cases env.dbErr .ListServices <;> simp [commandsRun]

theorem tick_commands (env : Env) (d : DB) : commandsRun (tick env d).1 = [] := by
  have hc := checkAllServices_commands env d
  have hi : commandsRun (IsUserActive env).1 = [] := by
    unfold IsUserActive
    rcases env.who with ⟨out, _ | err⟩ <;> simp [commandsRun]
  have hg : commandsRun (match (GetPauseConfig env d).2 with
      | some err => [Event.db .GetPauseConfig, Event.log ("Error reading pause config: " ++ err)]
      | none => [Event.db .GetPauseConfig]) = [] := by
    cases (GetPauseConfig env d).2 <;> simp [commandsRun]
  unfold tick
  cases h1 : (GetPauseConfig env d).1 <;> cases h3 : (IsUserActive env).2
  all_goals simp [h1, h3, commandsRun_append, hc, hi, hg]
  simp [commandsRun]

theorem checkAndRestart_trace_indep (env : Env) (u : Service) (d d2 : DB) :
    (checkAndRestart env u d).1 = (checkAndRestart env u d2).1 := by
  unfold checkAndRestart runCommand
  cases env.sh u.CheckCommand <;> cases env.sh u.RestartCommand <;> rfl

theorem runUnits_trace (env : Env) (units : List Service) (d d0 : DB) :
    (runUnits env units d).1 = units.flatMap fun u => (checkAndRestart env u d0).1 := by
  induction units generalizing d with
  | nil => rfl
  | cons u rest ih =>
    simp only [runUnits, List.flatMap_cons, ih, checkAndRestart_trace_indep env u d d0]

theorem runUnits_commands (env : Env) (units : List Service) (d d0 : DB) :
    commandsRun (runUnits env units d).1
      = units.flatMap fun u => commandsRun (checkAndRestart env u d0).1 := by
  induction units generalizing d with
  | nil => rfl
  | cons u rest ih =>
    simp only [runUnits, List.flatMap_cons, commandsRun_append, ih,
      checkAndRestart_trace_indep env u d d0]

theorem launch_without (s : Service) (hd : s.Enabled = false) (l : List Service) :
    launch (l.filter fun r => decide (r ≠ s)) = launch l := by
  induction l with
  | nil => rfl
  | cons a l ih =>
    simp only [ne_eq, decide_not] at ih
    by_cases ha : a = s
    · subst ha
      simp [launch, hd, ih]
    · simp [launch, ha, ih]

theorem tick_without (env : Env) (d : DB) (s : Service) (hd : s.Enabled = false) :
    tick env { d with services := d.services.filter fun r => decide (r ≠ s) } = tick env d := by
  have hc : checkAllServices env
      { d with services := d.services.filter fun r => decide (r ≠ s) }
      = checkAllServices env d := by
    unfold checkAllServices ListServices
    cases env.dbErr .ListServices with
    | some err => rfl
    | none => simp only [launch_without s hd]
  have hg : GetPauseConfig env
      { d with services := d.services.filter fun r => decide (r ≠ s) }
      = GetPauseConfig env d := rfl
  unfold tick
  rw [hc, hg]

theorem runTick_trace_without (env : Env) (d : DB) (s : Service) (hd : s.Enabled = false) :
    (runTick env { d with services := d.services.filter fun r => decide (r ≠ s) }).1
      = (runTick env d).1 := by
  simp only [runTick, tick_without env d s hd]
  rw [runUnits_trace env (tick env d).2 _ d, runUnits_trace env (tick env d).2 d d]

end monitor

namespace scheduler

open db

theorem loadLoop_own (env : Env) (l : List Service) (c : Cron) :
    commandsRun (loadLoop env l c).1 = [] ∧ timestampWrites (loadLoop env l c).1 = [] := by
  induction l generalizing c with
  | nil => exact ⟨rfl, rfl⟩
  | cons s rest ih =>
    by_cases h : s.CronSchedule = "" ∨ s.Enabled = false
    · simp only [loadLoop, h, if_true]
      exact ih c
    · have ih2 := ih (c.AddFunc env s.CronSchedule s).2
      simp only [loadLoop, h, if_false]
      cases (c.AddFunc env s.CronSchedule s).1.2 <;>
        simp [commandsRun, timestampWrites] <;>
        simpa [commandsRun, timestampWrites] using ih2

theorem loadJobs_own (env : Env) (d : DB) (c : Cron) :
    commandsRun (loadJobs env d c).1.1 = [] ∧ timestampWrites (loadJobs env d c).1.1 = [] := by
  have h := loadLoop_own env d.services c
  unfold loadJobs ListServices
  cases env.dbErr .ListServices with
  | some err => exact ⟨rfl, rfl⟩
  | none =>
    constructor
    · simpa [commandsRun] using h.1
    · simpa [timestampWrites] using h.2

theorem Start_own (env : Env) (d : DB) :
    commandsRun (Start env d).1 = [] ∧ timestampWrites (Start env d).1 = [] := by
  have h := loadJobs_own env d New
  have h1 : commandsRun (Start env d).1 = commandsRun (loadJobs env d New).1.1 := by
    unfold Start
    cases h0 : (loadJobs env d New).1.2 <;> simp [h0, commandsRun, List.filterMap_append]
  have h2 : timestampWrites (Start env d).1 = timestampWrites (loadJobs env d New).1.1 := by
    unfold Start
    cases h0 : (loadJobs env d New).1.2 <;> simp [h0, timestampWrites, List.filterMap_append]
  exact ⟨h1.trans h.1, h2.trans h.2⟩

theorem loadLoop_without (env : Env) (s : Service) (hd : s.Enabled = false)
    (l : List Service) (c : Cron) :
    loadLoop env (l.filter fun r => decide (r ≠ s)) c = loadLoop env l c := by
  induction l generalizing c with
  | nil => rfl
  | cons a l ih =>
    by_cases ha : a = s
    · subst ha
      have ih2 := ih c
      simp only [ne_eq, decide_not] at ih2
      simp [loadLoop, hd, ih2]
    · by_cases h : a.CronSchedule = "" ∨ a.Enabled = false
      · simp only [ne_eq, ha, not_false_eq_true, decide_True, List.filter_cons_of_pos, loadLoop,
          h, if_true]
        exact ih c
      · simp only [ne_eq, ha, not_false_eq_true, decide_True, List.filter_cons_of_pos, loadLoop,
          h, if_false]
        rw [ih]

theorem loadJobs_without (env : Env) (d : DB) (s : Service) (hd : s.Enabled = false)
    (c : Cron) :
    loadJobs env { d with services := d.services.filter fun r => decide (r ≠ s) } c
      = loadJobs env d c := by
  unfold loadJobs ListServices
  cases env.dbErr .ListServices with
  | some err => rfl
  | none => simp only [loadLoop_without env s hd]

theorem Start_without (env : Env) (d : DB) (s : Service) (hd : s.Enabled = false) :
    Start env { d with services := d.services.filter fun r => decide (r ≠ s) }
      = Start env d := by
  unfold Start
  rw [loadJobs_without env d s hd]

end scheduler

open db in
/-- C4: a service of the registry with enabled false is skipped by both
components, whatever its schedule and whatever its commands would return.
Loop: `checkAllServices` and the tick run no command and send no timestamp
write themselves, they launch no unit for the service, every unit they launch
is for an enabled row, the commands run in a whole tick are exactly those of
the launched units, and the effects of the whole tick are those of the same
tick on the registry without the service. Engine: `loadJobs` and `Start` run no
command and send no timestamp write, attempt no registration and add no
trigger for the service, a firing runs the safe-restart procedure of the
record of its trigger only, and `loadJobs` and `Start` do what they do on the
registry without the service. The id of the service being its own (primary
key), a whole tick sends no timestamp write for it and leaves its row as it
was. -/
theorem disabled_service_untouched (env : Env) (d : DB) (s : Service)
    (hs : s ∈ d.services) (hd : s.Enabled = false) :
    commandsRun (monitor.checkAllServices env d).1 = [] ∧
    timestampWrites (monitor.checkAllServices env d).1 = [] ∧
    commandsRun (monitor.tick env d).1 = [] ∧
    timestampWrites (monitor.tick env d).1 = [] ∧
    s ∉ (monitor.checkAllServices env d).2 ∧
    s ∉ (monitor.tick env d).2 ∧
    (∀ u ∈ (monitor.tick env d).2, u ∈ d.services ∧ u.Enabled = true) ∧
    commandsRun (monitor.runTick env d).1 =
      ((monitor.tick env d).2.flatMap fun u =>
        commandsRun (monitor.checkAndRestart env u d).1) ∧
    (monitor.runTick env { d with services := d.services.filter fun r => decide (r ≠ s) }).1
      = (monitor.runTick env d).1 ∧
    (∀ c, commandsRun (scheduler.loadJobs env d c).1.1 = [] ∧
      timestampWrites (scheduler.loadJobs env d c).1.1 = []) ∧
    commandsRun (scheduler.Start env d).1 = [] ∧
    timestampWrites (scheduler.Start env d).1 = [] ∧
    (∀ c spec, (spec, s) ∉ registrations (scheduler.loadJobs env d c).1.1) ∧
    (∀ c, (∀ e ∈ c.entries, e.svc ≠ s) →
      ∀ e ∈ (scheduler.loadJobs env d c).2.entries, e.svc ≠ s) ∧
    (∀ c, (scheduler.Start env d).2 = some c → ∀ e ∈ c.entries, e.svc ≠ s) ∧
    (∀ e d2, scheduler.fire env e d2 = scheduler.safeRestart env e.svc d2) ∧
    (∀ c, scheduler.loadJobs env
        { d with services := d.services.filter fun r => decide (r ≠ s) } c
      = scheduler.loadJobs env d c) ∧
    scheduler.Start env { d with services := d.services.filter fun r => decide (r ≠ s) }
      = scheduler.Start env d ∧
    ((∀ r ∈ d.services, r.ID = s.ID → r = s) →
      Query.UpdateLastChecked s.ID ∉ timestampWrites (monitor.runTick env d).1 ∧
      Query.UpdateLastRestarted s.ID ∉ timestampWrites (monitor.runTick env d).1 ∧
      s ∈ (monitor.runTick env d).2.services) := by
  have h := disabled_service_skipped env d s hs hd
  have hen : ∀ u ∈ (monitor.tick env d).2, u ∈ d.services ∧ u.Enabled = true := by
    intro u hu
    rcases (monitor.tick_own env d).2 with h1 | h1
    · rw [h1] at hu
      exact absurd hu (List.not_mem_nil u)
    · rw [h1] at hu
      exact monitor.mem_launch.mp hu
  have hcmd : commandsRun (monitor.runTick env d).1 =
      ((monitor.tick env d).2.flatMap fun u =>
        commandsRun (monitor.checkAndRestart env u d).1) := by
    simp only [monitor.runTick, monitor.commandsRun_append, monitor.tick_commands,
      List.nil_append]
    exact monitor.runUnits_commands env (monitor.tick env d).2 d d
  exact ⟨monitor.checkAllServices_commands env d, (monitor.checkAllServices_own env d).1,
    monitor.tick_commands env d, (monitor.tick_own env d).1, h.1, h.2.1, hen, hcmd,
    monitor.runTick_trace_without env d s hd, fun c => scheduler.loadJobs_own env d c,
    (scheduler.Start_own env d).1, (scheduler.Start_own env d).2, h.2.2.2.1, h.2.2.2.2.1,
    h.2.2.2.2.2, fun _ _ => rfl, fun c => scheduler.loadJobs_without env d s hd c,
    scheduler.Start_without env d s hd, h.2.2.1⟩

open db in
/-- C4, on a registry where the disabled service `off` has a schedule and a
failing check command: the commands of the whole tick are those of the four
enabled services, the engine registers the two enabled services that have a
schedule. -/
theorem disabled_service_untouched_witness :
    commandsRun (monitor.checkAllServices exitEnv fullRegistry).1 = [] ∧
    commandsRun (monitor.tick exitEnv fullRegistry).1 = [] ∧
    off ∉ (monitor.tick exitEnv fullRegistry).2 ∧
    commandsRun (monitor.runTick exitEnv fullRegistry).1 =
      ["exit 1", "exit 0", "exit 0", "exit 1", "exit 2", "exit 0"] ∧
    (monitor.runTick exitEnv
        { fullRegistry with services := [web, cache, stuck, dbSvc] }).1
      = (monitor.runTick exitEnv fullRegistry).1 ∧
    commandsRun (scheduler.Start exitEnv fullRegistry).1 = [] ∧
    (∀ c spec, (spec, off) ∉ registrations (scheduler.loadJobs exitEnv fullRegistry c).1.1) ∧
    (∀ c, (scheduler.Start exitEnv fullRegistry).2 = some c →
      ∀ e ∈ c.entries, e.svc ≠ off) ∧
    scheduler.Start exitEnv { fullRegistry with services := [web, cache, stuck, dbSvc] }
      = scheduler.Start exitEnv fullRegistry ∧
    Query.UpdateLastChecked off.ID
      ∉ timestampWrites (monitor.runTick exitEnv fullRegistry).1 ∧
    Query.UpdateLastRestarted off.ID
      ∉ timestampWrites (monitor.runTick exitEnv fullRegistry).1 ∧
    off ∈ (monitor.runTick exitEnv fullRegistry).2.services := by
  obtain ⟨h1, _, h3, _, _, h6, _, h8, h9, _, h11, _, h13, _, h15, _, _, h18, h19⟩ :=
    disabled_service_untouched exitEnv fullRegistry off (by decide) (by decide)
  obtain ⟨h20, h21, h22⟩ := h19 (by decide)
  exact ⟨h1, h3, h6, h8, h9, h11, h13, h15, h18, h20, h21, h22⟩
